import Mathlib

/-!
Verification of the GridCal power-flow result aggregation, limit checking,
JSON import and reliability-sampling code.

The Python sources embedded here are:
  - GridCal/Engine/Simulations/PowerFlow/power_flow_results.py
    (class PowerFlowResults)
  - GridCal/Engine/IO/json_parser.py (function parse_json_data)
  - UnderDevelopment/GridCal/Engine/MetaDevices.py
    (class ReliabilityDevice, method get_reliability_events)

Modelling conventions:
  - numpy float arithmetic is idealised as exact arithmetic; array values that
    stay rational are represented over the rationals, values that genuinely
    involve a square root (the magnitude of a complex number) live in the
    real numbers.
  - numpy complex arrays are lists of pairs of rationals (structure Cplx).
  - numpy fancy indexing assignment a[idx] = vals is the function scatter.
  - np.where(cond)[0] over an array of length len is the function idxWhere.
  - Python exceptions (KeyError, TypeError) are the Except monad.
-/

namespace GridCalSpec

/-- Complex number with rational components, embedding the values stored in
numpy complex arrays. -/
structure Cplx where
  re : ℚ
  im : ℚ
deriving DecidableEq

/-- Modelled from the spec: the ConvergenceReport record produced by the
per-island solver adapter is not part of the given sources (only its users
are); per section 3 it is the per-island record
(method used, converged flag, final error, elapsed time, iteration count),
appended to a global ordered sequence.  The plural field names follow the
accessors used by PowerFlowResults.get_report_dataframe. -/
structure ConvergenceReport where
  methods_ : List String
  converged_ : Bool
  error_ : ℚ
  elapsed_ : ℚ
  iterations_ : Nat
deriving DecidableEq

/-- Modelled from the spec: the report accessor converged() returns the
report's converged flag. -/
def ConvergenceReport.converged (c : ConvergenceReport) : Bool :=
  c.converged_

/-- Modelled from the spec: the report accessor error() returns the report's
final error. -/
def ConvergenceReport.error (c : ConvergenceReport) : ℚ :=
  c.error_

/-- State of a PowerFlowResults object (power_flow_results.py, __init__).
The fields overloads_idx, overvoltage_idx and undervoltage_idx are created by
check_limits on first call in Python; here they are part of the record,
initialised empty.  overvoltage and undervoltage start as numpy zero arrays
and are rebound by check_limits to the (real-valued) excess vectors, so they
are real-valued lists here.  The constant GUI list available_results (a list
of ResultTypes enumeration tags) carries no numeric state and is omitted. -/
structure PowerFlowResults where
  name : String
  n : Nat
  m : Nat
  n_tr : Nat
  n_hvdc : Nat
  bus_types : List Nat
  bus_names : List String
  branch_names : List String
  transformer_names : List String
  hvdc_names : List String
  Sbus : List Cplx
  voltage : List Cplx
  overvoltage : List ℝ
  undervoltage : List ℝ
  Sbranch : List Cplx
  Ibranch : List Cplx
  Vbranch : List Cplx
  loading : List Cplx
  flow_direction : List ℚ
  tap_module : List ℚ
  losses : List Cplx
  hvdc_losses : List ℚ
  hvdc_sent_power : List ℚ
  hvdc_loading : List ℚ
  overloads : List Cplx
  buses_useful_for_storage : List Nat
  plot_bars_limit : Nat
  convergence_reports : List ConvergenceReport
  overloads_idx : List Nat
  overvoltage_idx : List Nat
  undervoltage_idx : List Nat

/-- PowerFlowResults.__init__: every array is allocated at its global size
and zero-filled; the report list starts empty. -/
def mkPowerFlowResults (n m n_tr n_hvdc : Nat)
    (bus_names branch_names transformer_names hvdc_names : List String)
    (bus_types : List Nat) : PowerFlowResults where
  name := "Power flow"
  n := n
  m := m
  n_tr := n_tr
  n_hvdc := n_hvdc
  bus_types := bus_types
  bus_names := bus_names
  branch_names := branch_names
  transformer_names := transformer_names
  hvdc_names := hvdc_names
  Sbus := List.replicate n ⟨0, 0⟩
  voltage := List.replicate n ⟨0, 0⟩
  overvoltage := List.replicate n 0
  undervoltage := List.replicate n 0
  Sbranch := List.replicate m ⟨0, 0⟩
  Ibranch := List.replicate m ⟨0, 0⟩
  Vbranch := List.replicate m ⟨0, 0⟩
  loading := List.replicate m ⟨0, 0⟩
  flow_direction := List.replicate m 0
  tap_module := List.replicate n_tr 0
  losses := List.replicate m ⟨0, 0⟩
  hvdc_losses := List.replicate n_hvdc 0
  hvdc_sent_power := List.replicate n_hvdc 0
  hvdc_loading := List.replicate n_hvdc 0
  overloads := List.replicate m ⟨0, 0⟩
  buses_useful_for_storage := []
  plot_bars_limit := 100
  convergence_reports := []
  overloads_idx := []
  overvoltage_idx := []
  undervoltage_idx := []

/-- PowerFlowResults.converged:
val = True; for conv in self.convergence_reports: val *= conv.converged().
Python bools multiply as the integers 0 and 1, so the returned value is the
number 1 (truthy) or 0 (falsy). -/
def PowerFlowResults.converged (r : PowerFlowResults) : Nat :=
  r.convergence_reports.foldl (fun v c => v * (if c.converged then 1 else 0)) 1

/-- PowerFlowResults.error:
val = 0.0; for conv in self.convergence_reports: val = max(val, conv.error()). -/
def PowerFlowResults.error (r : PowerFlowResults) : ℚ :=
  r.convergence_reports.foldl (fun v c => max v c.error) 0

/-- numpy fancy-indexing assignment xs[idx] = vals: position idx[k] receives
vals[k].  numpy requires len(idx) = len(vals) and every index in range; the
theorems below assume exactly that (zip truncation and out-of-range set are
silent here, where numpy would raise). -/
def scatter {α : Type} (xs : List α) (idx : List Nat) (vals : List α) : List α :=
  (idx.zip vals).foldl (fun a p => a.set p.1 p.2) xs

/-- PowerFlowResults.apply_from_island: scatters each local island array into
the global arrays at the index-map positions and extends the report list with
the island's reports.  The HVDC arrays (hvdc_losses, hvdc_sent_power,
hvdc_loading) are not touched by the source method. -/
def PowerFlowResults.apply_from_island (g res : PowerFlowResults)
    (b_idx br_idx tr_idx : List Nat) : PowerFlowResults :=
  { g with
    Sbus := scatter g.Sbus b_idx res.Sbus
    voltage := scatter g.voltage b_idx res.voltage
    Sbranch := scatter g.Sbranch br_idx res.Sbranch
    Ibranch := scatter g.Ibranch br_idx res.Ibranch
    Vbranch := scatter g.Vbranch br_idx res.Vbranch
    loading := scatter g.loading br_idx res.loading
    tap_module := scatter g.tap_module tr_idx res.tap_module
    losses := scatter g.losses br_idx res.losses
    flow_direction := scatter g.flow_direction br_idx res.flow_direction
    convergence_reports := g.convergence_reports ++ res.convergence_reports }

/-- One full aggregation pass: apply_from_island once per island, in island
processing order. -/
def applyPass (g : PowerFlowResults)
    (xs : List (PowerFlowResults × List Nat × List Nat × List Nat)) :
    PowerFlowResults :=
  xs.foldl (fun acc q => acc.apply_from_island q.1 q.2.1 q.2.2.1 q.2.2.2) g

/-- np.where(cond)[0] for a boolean condition over positions 0..len-1. -/
def idxWhere (p : Nat → Bool) (len : Nat) : List Nat :=
  (List.range len).filter p

/-- The numpy comparison z > 1 on a complex value: numpy orders complex
numbers lexicographically, real part first, then imaginary part. -/
def cplxGtOne (z : Cplx) : Bool :=
  decide (1 < z.re) || (decide (z.re = 1) && decide (0 < z.im))

/-- The numpy comparison np.abs(z) > c, decided exactly over the rationals by
comparing squares: sqrt(re^2+im^2) > c iff c < 0 or c^2 < re^2+im^2. -/
def absGtB (z : Cplx) (c : ℚ) : Bool :=
  decide (c < 0) || decide (c * c < z.re * z.re + z.im * z.im)

/-- The numpy comparison np.abs(z) < c, decided exactly over the rationals:
sqrt(re^2+im^2) < c iff 0 < c and re^2+im^2 < c^2. -/
def absLtB (z : Cplx) (c : ℚ) : Bool :=
  decide (0 < c) && decide (z.re * z.re + z.im * z.im < c * c)

/-- np.abs of a complex value: its magnitude, a real number. -/
noncomputable def vabs (z : Cplx) : ℝ :=
  Real.sqrt ((z.re : ℝ) ^ 2 + (z.im : ℝ) ^ 2)

/-- Indices selected by np.where(self.loading > 1)[0]. -/
def overloadsIdxOf (loading : List Cplx) : List Nat :=
  idxWhere (fun i => cplxGtOne (loading.getD i ⟨0, 0⟩)) loading.length

/-- Indices selected by np.where(np.abs(self.voltage) > Vmax)[0]. -/
def overvoltIdxOf (voltage : List Cplx) (Vmax : List ℚ) : List Nat :=
  idxWhere (fun j => absGtB (voltage.getD j ⟨0, 0⟩) (Vmax.getD j 0)) voltage.length

/-- Indices selected by np.where(np.abs(self.voltage) < Vmin)[0]. -/
def undervoltIdxOf (voltage : List Cplx) (Vmin : List ℚ) : List Nat :=
  idxWhere (fun j => absLtB (voltage.getD j ⟨0, 0⟩) (Vmin.getD j 0)) voltage.length

/-- Componentwise sum of a complex array (np.sum). -/
def csum (zs : List Cplx) : Cplx :=
  zs.foldl (fun a z => ⟨a.re + z.re, a.im + z.im⟩) ⟨0, 0⟩

/-- PowerFlowResults.check_limits: selects the branches with loading > 1
(numpy's lexicographic complex order), the buses with voltage magnitude above
Vmax and below Vmin, stores the selected loading values and the voltage excess
vectors together with the index sets and the storage-hint bus set, and returns
the updated state together with the penalty
np.abs(wo * sum(overloads) + wv1 * sum(overvoltage) + wv2 * sum(undervoltage)).
Python set(...) has no specified order; the hint list keeps first occurrences. -/
noncomputable def PowerFlowResults.check_limits (r : PowerFlowResults)
    (F T : List Nat) (Vmax Vmin : List ℚ) (wo wv1 wv2 : ℚ) :
    PowerFlowResults × ℝ :=
  let br_idx := overloadsIdxOf r.loading
  let bb_f := br_idx.map (fun i => F.getD i 0)
  let bb_t := br_idx.map (fun i => T.getD i 0)
  let overloads := br_idx.map (fun i => r.loading.getD i ⟨0, 0⟩)
  let vo_idx := overvoltIdxOf r.voltage Vmax
  let overvoltage : List ℝ :=
    vo_idx.map (fun j => vabs (r.voltage.getD j ⟨0, 0⟩) - (Vmax.getD j 0 : ℝ))
  let vu_idx := undervoltIdxOf r.voltage Vmin
  let undervoltage : List ℝ :=
    vu_idx.map (fun j => ((Vmin.getD j 0 : ℚ) : ℝ) - vabs (r.voltage.getD j ⟨0, 0⟩))
  let sumOl := csum overloads
  let tre : ℝ := (wo : ℝ) * (sumOl.re : ℝ) + (wv1 : ℝ) * overvoltage.sum
      + (wv2 : ℝ) * undervoltage.sum
  let tim : ℝ := (wo : ℝ) * (sumOl.im : ℝ)
  ({ r with
      overloads := overloads
      overvoltage := overvoltage
      undervoltage := undervoltage
      overloads_idx := br_idx
      overvoltage_idx := vo_idx
      undervoltage_idx := vu_idx
      buses_useful_for_storage := (vo_idx ++ vu_idx ++ bb_f ++ bb_t).dedup },
   Real.sqrt (tre ^ 2 + tim ^ 2))

/-- Keyword-argument record for a call to PowerFlowResults.__init__.  Every
parameter of the Python constructor is positional-or-keyword with no default,
so a call supplying none for a field is a TypeError at call time. -/
structure InitArgs where
  n : Option Nat
  m : Option Nat
  n_tr : Option Nat
  n_hvdc : Option Nat
  bus_names : Option (List String)
  branch_names : Option (List String)
  transformer_names : Option (List String)
  hvdc_names : Option (List String)
  bus_types : Option (List Nat)

/-- Calling PowerFlowResults(...) with keyword arguments: Python raises
TypeError when any of the nine required parameters is missing, otherwise
__init__ runs. -/
def callInit (a : InitArgs) : Except String PowerFlowResults :=
  match a.n, a.m, a.n_tr, a.n_hvdc, a.bus_names, a.branch_names,
      a.transformer_names, a.hvdc_names, a.bus_types with
  | some n, some m, some n_tr, some n_hvdc, some bus_names, some branch_names,
      some transformer_names, some hvdc_names, some bus_types =>
    Except.ok (mkPowerFlowResults n m n_tr n_hvdc bus_names branch_names
      transformer_names hvdc_names bus_types)
  | _, _, _, _, _, _, _, _, _ =>
    Except.error "TypeError: __init__() missing required positional arguments"

/-- PowerFlowResults.copy: calls the constructor with keyword arguments
n, m, n_tr, bus_names, branch_names, transformer_names only (the source
passes neither n_hvdc nor hvdc_names nor bus_types), then copies the arrays
onto the fresh object. -/
def PowerFlowResults.copy (r : PowerFlowResults) :
    Except String PowerFlowResults := do
  let val ← callInit
    { n := some r.n
      m := some r.m
      n_tr := some r.n_tr
      n_hvdc := none
      bus_names := some r.bus_names
      branch_names := some r.branch_names
      transformer_names := some r.transformer_names
      hvdc_names := none
      bus_types := none }
  pure { val with
    Sbus := r.Sbus
    voltage := r.voltage
    overvoltage := r.overvoltage
    undervoltage := r.undervoltage
    Sbranch := r.Sbranch
    Ibranch := r.Ibranch
    Vbranch := r.Vbranch
    loading := r.loading
    flow_direction := r.flow_direction
    tap_module := r.tap_module
    losses := r.losses
    overloads := r.overloads }

/-- Element type tag of a positive-sequence JSON element
(json_parser.py, parse_json_data dispatch). -/
inductive JType
  | circuit
  | bus
  | load
  | controlled_gen
  | static_gen
  | battery
  | shunt
  | branch
deriving DecidableEq

/-- One element of the JSON input list.  The Python data is a dictionary;
here every key any branch of the dispatch reads is a field (a well-formed
file supplies the keys its element type needs, and no claim concerns
missing-key errors). -/
structure JElement where
  phases : String
  jtype : JType
  id : String
  name : String
  Sbase : ℚ
  comments : String
  Vnom : ℚ
  vmax : ℚ
  vmin : ℚ
  is_slack : Bool
  rf : ℚ
  xf : ℚ
  bus : String
  bus_from : String
  bus_to : String
  P : ℚ
  Q : ℚ
  active : Bool
  r : ℚ
  x : ℚ
  g : ℚ
  b : ℚ
  rate : ℚ
deriving DecidableEq

/-- Modelled from the spec: an injection record (load, generator, static
generator, battery, shunt) attached to a bus; the Devices classes are not in
the given sources.  Only the fields the parser sets are kept. -/
structure InjM where
  name : String
  P : ℚ
  Q : ℚ
  active : Bool
deriving DecidableEq

/-- Modelled from the spec: a Bus of the network graph model with its voltage
limits and owned injection lists, as populated by parse_json_data. -/
structure BusM where
  name : String
  Vnom : ℚ
  Vmax : ℚ
  Vmin : ℚ
  is_slack : Bool
  Zf_re : ℚ
  Zf_im : ℚ
  loads : List InjM
  controlled_generators : List InjM
  static_generators : List InjM
  batteries : List InjM
  shunts : List InjM
deriving DecidableEq

/-- Modelled from the spec: a Branch holding (weak) references to its two
endpoint buses; the parser stores the resolved bus objects, recorded here by
their JSON ids. -/
structure BranchM where
  bus_from : String
  bus_to : String
  name : String
  r : ℚ
  x : ℚ
  g : ℚ
  b : ℚ
  rate : ℚ
  active : Bool
deriving DecidableEq

/-- Modelled from the spec: the MultiCircuit container produced by the import
layer — bus and branch collections plus identity.  Buses are recorded by id
in addition order; the bus records themselves live in the parser's bus_id
dictionary (Python aliases the same Bus objects from both places). -/
structure MultiCircuit where
  name : String
  Sbase : ℚ
  comments : String
  bus_order : List String
  branches : List BranchM
deriving DecidableEq

/-- An empty MultiCircuit(), as built at the start of parse_json_data. -/
def emptyCircuit : MultiCircuit where
  name := ""
  Sbase := 100
  comments := ""
  bus_order := []
  branches := []

/-- Parser state: the circuit under construction and the bus_id dictionary
mapping JSON bus ids to the Bus records added so far.  A "circuit" element
replaces the circuit but Python does not clear bus_id, and neither does the
model. -/
structure ParseState where
  circuit : MultiCircuit
  bus_id : List (String × BusM)
deriving DecidableEq

/-- Dictionary lookup bus_id[key]. -/
def lookupBus (d : List (String × BusM)) (key : String) : Option BusM :=
  (d.find? (fun p => p.1 == key)).map (·.2)

/-- Dictionary store bus_id[key] = b: the new binding shadows any older one
for lookupBus, which observes the most recent binding — the dictionary
overwrite semantics (bus_id is only ever read through lookupBus). -/
def storeBus (d : List (String × BusM)) (key : String) (b : BusM) :
    List (String × BusM) :=
  (key, b) :: d

/-- Mutating the Bus object found under key in bus_id (Python appends the new
injection to a list of the shared Bus object); a missing key is a KeyError. -/
def attachInj (st : ParseState) (key : String) (f : BusM → BusM) :
    Except String ParseState :=
  match lookupBus st.bus_id key with
  | none => Except.error ("KeyError: " ++ key)
  | some bm => Except.ok { st with bus_id := storeBus st.bus_id key (f bm) }

/-- Processing of one JSON element by parse_json_data: elements whose phases
field is not "ps" are skipped with a warning; a bus is added to the circuit
and to bus_id; injections and branch endpoints are looked up in bus_id, and a
missing id raises KeyError, aborting the parse. -/
def parseElement (st : ParseState) (e : JElement) : Except String ParseState :=
  if e.phases = "ps" then
    match e.jtype with
    | JType.circuit =>
      Except.ok { st with circuit :=
        { emptyCircuit with name := e.name, Sbase := e.Sbase, comments := e.comments } }
    | JType.bus =>
      let bm : BusM :=
        { name := e.name
          Vnom := e.Vnom
          Vmax := if 0 < e.vmax then e.vmax else 11/10
          Vmin := if 0 < e.vmin then e.vmin else 9/10
          is_slack := e.is_slack
          Zf_re := e.rf
          Zf_im := e.xf
          loads := []
          controlled_generators := []
          static_generators := []
          batteries := []
          shunts := [] }
      Except.ok
        { circuit := { st.circuit with bus_order := st.circuit.bus_order ++ [e.id] }
          bus_id := storeBus st.bus_id e.id bm }
    | JType.load =>
      attachInj st e.bus (fun bm =>
        { bm with loads := bm.loads ++ [⟨e.name, e.P, e.Q, e.active⟩] })
    | JType.controlled_gen =>
      attachInj st e.bus (fun bm =>
        { bm with controlled_generators :=
            bm.controlled_generators ++ [⟨e.name, e.P, e.Q, e.active⟩] })
    | JType.static_gen =>
      attachInj st e.bus (fun bm =>
        { bm with static_generators :=
            bm.static_generators ++ [⟨e.name, e.P, e.Q, e.active⟩] })
    | JType.battery =>
      attachInj st e.bus (fun bm =>
        { bm with batteries := bm.batteries ++ [⟨e.name, e.P, e.Q, e.active⟩] })
    | JType.shunt =>
      attachInj st e.bus (fun bm =>
        { bm with shunts := bm.shunts ++ [⟨e.name, e.P, e.Q, e.active⟩] })
    | JType.branch =>
      match lookupBus st.bus_id e.bus_from with
      | none => Except.error ("KeyError: " ++ e.bus_from)
      | some _ =>
        match lookupBus st.bus_id e.bus_to with
        | none => Except.error ("KeyError: " ++ e.bus_to)
        | some _ =>
          Except.ok { st with circuit :=
            { st.circuit with branches := st.circuit.branches ++
                [⟨e.bus_from, e.bus_to, e.name, e.r, e.x, e.g, e.b, e.rate, e.active⟩] } }
  else
    Except.ok st

/-- parse_json_data: fold the element list through parseElement starting from
an empty circuit and an empty bus_id dictionary; an uncaught KeyError
propagates and no circuit is returned. -/
def parse_json_data (data : List JElement) : Except String MultiCircuit :=
  (data.foldlM parseElement ⟨emptyCircuit, []⟩).map (·.circuit)

/-- numpy ndarray.any(): true when some element is nonzero. -/
def anyNonzero (t : List ℚ) : Bool :=
  t.any (fun q => decide (q ≠ 0))

/-- A Python bool used in arithmetic comparison is the number 1 or 0. -/
def boolToRat (cond : Bool) : ℚ :=
  if cond then 1 else 0

/-- Elementwise t + te of two sample vectors. -/
def addVec (t te : List ℚ) : List ℚ :=
  (t.zip te).map (fun p => p.1 + p.2)

/-- Loop state of ReliabilityDevice.get_reliability_events: the per-sample
time vector t (initially np.zeros(n_samples)) and the accumulated event list.
Python appends the array object t itself, so after the loop all entries alias
the final t; the model appends the current value, which does not affect the
loop guard or termination. -/
structure RelEvState where
  t : List ℚ
  events : List (List ℚ)
deriving DecidableEq

/-- One body execution of the while loop in get_reliability_events:
te = get_failure_time(n_samples); if (t + te).any() <= horizon: t += te and
the event is recorded — note that (t + te).any() is a bool compared as 0/1 —
then the same with te = get_repair_time(n_samples). -/
def relBody (horizon : ℚ) (te_fail te_rep : List ℚ) (s : RelEvState) : RelEvState :=
  let s1 :=
    if boolToRat (anyNonzero (addVec s.t te_fail)) ≤ horizon then
      { t := addVec s.t te_fail, events := s.events ++ [addVec s.t te_fail] }
    else s
  if boolToRat (anyNonzero (addVec s1.t te_rep)) ≤ horizon then
    { t := addVec s1.t te_rep, events := s1.events ++ [addVec s1.t te_rep] }
  else s1

/-- ReliabilityDevice.get_reliability_events as a fuelled loop.  The while
guard of the source is  t.any() < horizon  — the bool t.any() compared as the
number 0 or 1.  The random draws -mttf*log(rand(n)) and -mttr*log(rand(n)) of
each iteration are abstracted as an arbitrary stream of sample-vector pairs,
indexed by the remaining fuel; the theorems quantify over every stream, hence
over every random outcome.  The result is some events when the guard turns
false within fuel iterations, and none when the loop is still running after
fuel iterations. -/
def get_reliability_events (horizon : ℚ) (samples : Nat → List ℚ × List ℚ) :
    Nat → RelEvState → Option (List (List ℚ))
  | 0, s =>
    if boolToRat (anyNonzero s.t) < horizon then none else some s.events
  | Nat.succ fuel, s =>
    if boolToRat (anyNonzero s.t) < horizon then
      get_reliability_events horizon samples fuel
        (relBody horizon (samples fuel).1 (samples fuel).2 s)
    else some s.events

/-- Folding the boolean product over reports equals the initial value times
the product of the 0/1 flags. -/
theorem foldl_mul_conv (l : List ConvergenceReport) (a : Nat) :
    l.foldl (fun v c => v * (if c.converged then 1 else 0)) a
      = a * (l.map (fun c => if c.converged then 1 else 0)).prod := by
  induction l generalizing a with
  | nil => simp
  | cons c cs ih => rw [List.foldl_cons, ih, List.map_cons, List.prod_cons, Nat.mul_assoc]

/-- converged() is the product of the reports' 0/1 converged flags. -/
theorem converged_eq_prod (r : PowerFlowResults) :
    r.converged
      = (r.convergence_reports.map (fun c => if c.converged then 1 else 0)).prod := by
  simpa [PowerFlowResults.converged] using foldl_mul_conv r.convergence_reports 1

/-- Flipping the converged flag of the report at position i to False. -/
def setFlagFalse : List ConvergenceReport → Nat → List ConvergenceReport
  | [], _ => []
  | c :: cs, 0 => { c with converged_ := false } :: cs
  | c :: cs, i + 1 => c :: setFlagFalse cs i

/-- A flipped list contains a non-converged report. -/
theorem setFlagFalse_mem (l : List ConvergenceReport) (i : Nat) (h : i < l.length) :
    ∃ c ∈ setFlagFalse l i, c.converged = false := by
  induction l generalizing i with
  | nil => simp at h
  | cons c cs ih =>
    cases i with
    | zero => exact ⟨{ c with converged_ := false }, by simp [setFlagFalse], rfl⟩
    | succ j =>
      obtain ⟨d, hd, hdf⟩ := ih j (by simpa using h)
      exact ⟨d, by simp [setFlagFalse, hd], hdf⟩

/-- The 0/1 flag product vanishes exactly when some report is non-converged. -/
theorem prod_flags_eq_zero_iff (l : List ConvergenceReport) :
    (l.map (fun c => if c.converged then 1 else 0)).prod = 0
      ↔ ∃ c ∈ l, c.converged = false := by
  rw [List.prod_eq_zero_iff]
  constructor
  · intro h
    simp only [List.mem_map] at h
    obtain ⟨c, hc, hc0⟩ := h
    refine ⟨c, hc, ?_⟩
    by_contra hb
    rw [Bool.not_eq_false] at hb
    simp [hb] at hc0
  · rintro ⟨c, hc, hb⟩
    simp only [List.mem_map]
    exact ⟨c, hc, by simp [hb]⟩

/-- C1: converged() is truthy (the product is nonzero, i.e. the value 1) if
and only if every report in convergence_reports has a true converged flag;
flipping any single report's flag to False makes the global converged()
falsy (0); and with zero reports converged() returns True (the value 1). -/
theorem c1_converged_iff_all_reports (r : PowerFlowResults) :
    (r.converged ≠ 0 ↔ ∀ c ∈ r.convergence_reports, c.converged = true)
  ∧ (∀ i, i < r.convergence_reports.length →
      PowerFlowResults.converged
        { r with convergence_reports := setFlagFalse r.convergence_reports i } = 0)
  ∧ (r.convergence_reports = [] → r.converged = 1) := by
  refine ⟨?_, ?_, ?_⟩
  · rw [converged_eq_prod, Ne, prod_flags_eq_zero_iff]
    constructor
    · intro h c hc
      cases hcv : c.converged with
      | true => rfl
      | false => exact absurd ⟨c, hc, hcv⟩ h
    · rintro h ⟨c, hc, hcv⟩
      rw [h c hc] at hcv
      cases hcv
  · intro i hi
    rw [converged_eq_prod]
    simp only
    rw [prod_flags_eq_zero_iff]
    exact setFlagFalse_mem r.convergence_reports i hi
  · intro h
    rw [converged_eq_prod, h]
    rfl

/-- A concrete convergence report used by the witnesses. -/
def sampleReport : ConvergenceReport :=
  { methods_ := ["NR"], converged_ := true, error_ := 1/1000, elapsed_ := 1, iterations_ := 5 }

/-- A concrete one-bus one-branch result object with one converged report. -/
def r1c : PowerFlowResults :=
  { mkPowerFlowResults 1 1 0 0 ["b"] ["br"] [] [] [1] with
    convergence_reports := [sampleReport] }

/-- Witness for C1: flipping the single report of a concrete converged result
makes converged() return 0. -/
theorem c1_converged_iff_all_reports_witness :
    0 < r1c.convergence_reports.length
  ∧ PowerFlowResults.converged
      { r1c with convergence_reports := setFlagFalse r1c.convergence_reports 0 } = 0 :=
  ⟨by decide, (c1_converged_iff_all_reports r1c).2.1 0 (by decide)⟩

/-- The max-fold over reports is an upper bound of the initial value and of
every report error, and is attained at the initial value or at some report. -/
theorem foldl_max_spec (l : List ConvergenceReport) (a : ℚ) :
    a ≤ l.foldl (fun v c => max v c.error) a
  ∧ (∀ c ∈ l, c.error ≤ l.foldl (fun v c => max v c.error) a)
  ∧ (l.foldl (fun v c => max v c.error) a = a
      ∨ ∃ c ∈ l, c.error = l.foldl (fun v c => max v c.error) a) := by
  induction l generalizing a with
  | nil => exact ⟨le_refl a, by simp, Or.inl rfl⟩
  | cons c cs ih =>
    obtain ⟨h1, h2, h3⟩ := ih (max a c.error)
    rw [List.foldl_cons]
    refine ⟨le_trans (le_max_left a c.error) h1, ?_, ?_⟩
    · intro d hd
      rcases List.mem_cons.mp hd with rfl | hd'
      · exact le_trans (le_max_right a d.error) h1
      · exact h2 d hd'
    · rcases h3 with h | ⟨d, hd, hde⟩
      · rcases max_choice a c.error with hm | hm
        · exact Or.inl (by rw [h, hm])
        · exact Or.inr ⟨c, List.mem_cons_self c cs, by rw [h, hm]⟩
      · exact Or.inr ⟨d, List.mem_cons_of_mem c hd, hde⟩

/-- A concrete result object with a single report of (nonsensical but
representable) negative error. -/
def r6bad : PowerFlowResults :=
  { mkPowerFlowResults 0 0 0 0 [] [] [] [] [] with
    convergence_reports :=
      [{ methods_ := ["NR"], converged_ := true, error_ := -1, elapsed_ := 0, iterations_ := 3 }] }

/-- C6 counterexample: on a result object with a single report of error -1,
error() returns 0, while the maximum of the error values of all reports is
-1 — the fold starts at 0.0, so error() is max(0, errors), not the maximum
of the report errors. -/
theorem c6_error_counterexample :
    r6bad.error = 0
  ∧ (r6bad.convergence_reports.map ConvergenceReport.error).maximum = some (-1)
  ∧ (0 : ℚ) ≠ -1 := by
  refine ⟨rfl, ?_, by norm_num⟩
  decide

/-- C6 amended: error() returns the maximum of 0.0 and the error values of
all convergence reports (worst case, not an average): it is nonnegative, an
upper bound of every report error, attained at 0 or at some report — hence
the maximum report error whenever that maximum is nonnegative — and with zero
reports (empty network) it returns 0.0. -/
theorem c6_error_max_spec (r : PowerFlowResults) :
    0 ≤ r.error
  ∧ (∀ c ∈ r.convergence_reports, c.error ≤ r.error)
  ∧ (r.error = 0 ∨ ∃ c ∈ r.convergence_reports, c.error = r.error)
  ∧ (r.convergence_reports = [] → r.error = 0) := by
  obtain ⟨h1, h2, h3⟩ := foldl_max_spec r.convergence_reports 0
  exact ⟨h1, h2, h3, fun h => by simp [PowerFlowResults.error, h]⟩

/-- A concrete empty result object (zero islands). -/
def r6empty : PowerFlowResults := mkPowerFlowResults 0 0 0 0 [] [] [] [] []

/-- Witness for C6: on the empty network, error() returns 0.0. -/
theorem c6_error_max_spec_witness :
    r6empty.convergence_reports = [] ∧ r6empty.error = 0 :=
  ⟨rfl, (c6_error_max_spec r6empty).2.2.2 rfl⟩

/-- C10: for every PowerFlowResults object, copy() raises a TypeError instead
of returning a duplicate: the constructor call inside copy() omits the
required n_hvdc, hvdc_names and bus_types arguments, so the Except value is
always an error and no copy is produced. -/
theorem c10_copy_raises_type_error (r : PowerFlowResults) :
    r.copy
      = Except.error "TypeError: __init__() missing required positional arguments" := by
  rfl

/-- Scattering with an empty index list changes nothing. -/
theorem scatter_nil_idx {α : Type} (xs : List α) (vals : List α) :
    scatter xs [] vals = xs := rfl

/-- Scattering with an empty value list changes nothing. -/
theorem scatter_nil_vals {α : Type} (xs : List α) (idx : List Nat) :
    scatter xs idx [] = xs := by
  cases idx <;> rfl

/-- One step of a scatter: write the head pair, continue with the tails. -/
theorem scatter_cons {α : Type} (xs : List α) (i : Nat) (is : List Nat)
    (v : α) (vs : List α) :
    scatter xs (i :: is) (v :: vs) = scatter (xs.set i v) is vs := rfl

/-- A scatter never changes the array length. -/
theorem length_scatter {α : Type} (xs : List α) (idx : List Nat) (vals : List α) :
    (scatter xs idx vals).length = xs.length := by
  induction idx generalizing xs vals with
  | nil => rfl
  | cons i is ih =>
    cases vals with
    | nil => rw [scatter_nil_vals]
    | cons v vs => rw [scatter_cons, ih, List.length_set]

/-- Positions outside the index list are untouched by a scatter. -/
theorem getElem?_scatter_not_mem {α : Type} (xs : List α) (idx : List Nat)
    (vals : List α) (j : Nat) (h : j ∉ idx) :
    (scatter xs idx vals)[j]? = xs[j]? := by
  induction idx generalizing xs vals with
  | nil => rfl
  | cons i is ih =>
    cases vals with
    | nil => rw [scatter_nil_vals]
    | cons v vs =>
      have hij : i ≠ j := by
        intro e
        subst e
        exact h (List.mem_cons_self i is)
      rw [scatter_cons, ih _ _ (fun hm => h (List.mem_cons_of_mem _ hm)),
        List.getElem?_set_ne hij]

/-- With a duplicate-free index list, position idx[k] receives vals[k]. -/
theorem getElem?_scatter_mem {α : Type} (xs : List α) (idx : List Nat)
    (vals : List α) (hnd : idx.Nodup) (k j : Nat) (v : α)
    (hj : idx[k]? = some j) (hv : vals[k]? = some v) (hrange : j < xs.length) :
    (scatter xs idx vals)[j]? = some v := by
  induction idx generalizing xs vals k with
  | nil => simp at hj
  | cons i is ih =>
    cases vals with
    | nil => simp at hv
    | cons w ws =>
      cases k with
      | zero =>
        rw [List.getElem?_cons_zero] at hj hv
        have hj' : i = j := Option.some.inj hj
        have hv' : w = v := Option.some.inj hv
        subst hj'
        subst hv'
        have hnotmem : i ∉ is := (List.nodup_cons.mp hnd).1
        rw [scatter_cons, getElem?_scatter_not_mem _ _ _ _ hnotmem]
        exact List.getElem?_set_eq_of_lt w (by simpa using hrange)
      | succ k' =>
        rw [List.getElem?_cons_succ] at hj hv
        rw [scatter_cons]
        exact ih (xs.set i w) ws (List.nodup_cons.mp hnd).2 k' hj hv
          (by simpa using hrange)

/-- getD version of getElem?_scatter_not_mem. -/
theorem getD_scatter_not_mem {α : Type} (xs : List α) (idx : List Nat)
    (vals : List α) (j : Nat) (h : j ∉ idx) (d : α) :
    (scatter xs idx vals).getD j d = xs.getD j d := by
  rw [List.getD_eq_getElem?_getD, List.getD_eq_getElem?_getD,
    getElem?_scatter_not_mem xs idx vals j h]

/-- getD version of getElem?_scatter_mem. -/
theorem getD_scatter_mem {α : Type} (xs : List α) (idx : List Nat)
    (vals : List α) (hnd : idx.Nodup) (k j : Nat) (v : α)
    (hj : idx[k]? = some j) (hv : vals[k]? = some v) (hrange : j < xs.length)
    (d : α) :
    (scatter xs idx vals).getD j d = v := by
  rw [List.getD_eq_getElem?_getD, getElem?_scatter_mem xs idx vals hnd k j v hj hv hrange]
  rfl

/-- A sequence of scatters into one array: each entry of ws is the pair
(index map, local values) contributed by one island. -/
def scatterFold {α : Type} (a0 : List α) (ws : List (List Nat × List α)) :
    List α :=
  ws.foldl (fun a w => scatter a w.1 w.2) a0

/-- A result array is exactly-once written from a0 by the write list ws:
position j = w.1[k] holds w.2[k] (written, by the unique writer), and every
position outside all index maps still holds its initial value (unwritten). -/
def ScatterSpec {α : Type} (a0 : List α) (ws : List (List Nat × List α))
    (result : List α) : Prop :=
  (∀ w ∈ ws, ∀ (k j : Nat) (v : α), (w.1)[k]? = some j → (w.2)[k]? = some v →
      j < a0.length → ∀ d, result.getD j d = v)
  ∧ (∀ j, (∀ w ∈ ws, j ∉ w.1) → ∀ d, result.getD j d = a0.getD j d)

/-- When the index maps are duplicate-free and pairwise disjoint, the fold of
scatters realises ScatterSpec: each mapped slot holds exactly its unique
writer's value and unmapped slots are untouched. -/
theorem scatterFold_spec {α : Type} (a0 : List α)
    (ws : List (List Nat × List α))
    (hnd : ∀ w ∈ ws, w.1.Nodup)
    (hdisj : ws.Pairwise (fun u w => ∀ j, j ∈ u.1 → j ∉ w.1)) :
    ScatterSpec a0 ws (scatterFold a0 ws) := by
  induction ws generalizing a0 with
  | nil => exact ⟨by simp, fun j _ d => rfl⟩
  | cons w ws ih =>
    have hw : w.1.Nodup := hnd w (List.mem_cons_self w ws)
    have hpc := List.pairwise_cons.mp hdisj
    obtain ⟨ihm, ihn⟩ := ih (scatter a0 w.1 w.2)
      (fun w' h => hnd w' (List.mem_cons_of_mem w h)) hpc.2
    constructor
    · intro u hu k j v hj hv hrange d
      rcases List.mem_cons.mp hu with rfl | hu'
      · have hjmem : j ∈ u.1 := List.getElem?_mem hj
        have hlater : ∀ w' ∈ ws, j ∉ w'.1 := fun w' hw' => hpc.1 w' hw' j hjmem
        have hskip : (scatterFold (scatter a0 u.1 u.2) ws).getD j d
            = (scatter a0 u.1 u.2).getD j d := ihn j hlater d
        show (scatterFold (scatter a0 u.1 u.2) ws).getD j d = v
        rw [hskip]
        exact getD_scatter_mem a0 u.1 u.2 hw k j v hj hv hrange d
      · exact ihm u hu' k j v hj hv (by rwa [length_scatter]) d
    · intro j h d
      have h1 : j ∉ w.1 := h w (List.mem_cons_self w ws)
      have h2 := ihn j (fun w' hw' => h w' (List.mem_cons_of_mem _ hw')) d
      show (scatterFold (scatter a0 w.1 w.2) ws).getD j d = a0.getD j d
      rw [h2]
      exact getD_scatter_not_mem a0 w.1 w.2 j h1 d

/-- C3: apply_from_island writes each of the island's local arrays (Sbus,
voltage, Sbranch, Ibranch, Vbranch, loading, losses, flow_direction,
tap_module) into the corresponding global array exactly at the positions
given by the index maps — slot b_idx[k] receives local value k, and every
slot outside the maps keeps its previous value, with no arithmetic
combination — and appends the island's convergence reports at the end of the
global report sequence, preserving order.  The index maps are assumed
duplicate-free; matching lengths and in-range indices (which numpy enforces
by raising) appear positionwise inside ScatterSpec. -/
theorem c3_apply_from_island_scatter (g res : PowerFlowResults)
    (b_idx br_idx tr_idx : List Nat)
    (hb : b_idx.Nodup) (hbr : br_idx.Nodup) (htr : tr_idx.Nodup) :
    ScatterSpec g.Sbus [(b_idx, res.Sbus)]
      (g.apply_from_island res b_idx br_idx tr_idx).Sbus
  ∧ ScatterSpec g.voltage [(b_idx, res.voltage)]
      (g.apply_from_island res b_idx br_idx tr_idx).voltage
  ∧ ScatterSpec g.Sbranch [(br_idx, res.Sbranch)]
      (g.apply_from_island res b_idx br_idx tr_idx).Sbranch
  ∧ ScatterSpec g.Ibranch [(br_idx, res.Ibranch)]
      (g.apply_from_island res b_idx br_idx tr_idx).Ibranch
  ∧ ScatterSpec g.Vbranch [(br_idx, res.Vbranch)]
      (g.apply_from_island res b_idx br_idx tr_idx).Vbranch
  ∧ ScatterSpec g.loading [(br_idx, res.loading)]
      (g.apply_from_island res b_idx br_idx tr_idx).loading
  ∧ ScatterSpec g.losses [(br_idx, res.losses)]
      (g.apply_from_island res b_idx br_idx tr_idx).losses
  ∧ ScatterSpec g.flow_direction [(br_idx, res.flow_direction)]
      (g.apply_from_island res b_idx br_idx tr_idx).flow_direction
  ∧ ScatterSpec g.tap_module [(tr_idx, res.tap_module)]
      (g.apply_from_island res b_idx br_idx tr_idx).tap_module
  ∧ (g.apply_from_island res b_idx br_idx tr_idx).convergence_reports
      = g.convergence_reports ++ res.convergence_reports := by
  refine ⟨?_, ?_, ?_, ?_, ?_, ?_, ?_, ?_, ?_, rfl⟩
  · exact scatterFold_spec _ _ (by simpa using hb) (by simp)
  · exact scatterFold_spec _ _ (by simpa using hb) (by simp)
  · exact scatterFold_spec _ _ (by simpa using hbr) (by simp)
  · exact scatterFold_spec _ _ (by simpa using hbr) (by simp)
  · exact scatterFold_spec _ _ (by simpa using hbr) (by simp)
  · exact scatterFold_spec _ _ (by simpa using hbr) (by simp)
  · exact scatterFold_spec _ _ (by simpa using hbr) (by simp)
  · exact scatterFold_spec _ _ (by simpa using hbr) (by simp)
  · exact scatterFold_spec _ _ (by simpa using htr) (by simp)

/-- A concrete two-bus global result object. -/
def g3 : PowerFlowResults :=
  mkPowerFlowResults 2 1 1 0 ["a", "b"] ["ab"] ["t"] [] [3, 1]

/-- A concrete island result covering both buses (in reversed order), the
single branch and the single transformer. -/
def res3 : PowerFlowResults :=
  { mkPowerFlowResults 2 1 1 0 ["a", "b"] ["ab"] ["t"] [] [3, 1] with
    Sbus := [⟨5, 0⟩, ⟨6, 0⟩]
    voltage := [⟨1, 0⟩, ⟨21/20, 0⟩]
    Sbranch := [⟨2, 1⟩]
    Ibranch := [⟨2, 0⟩]
    Vbranch := [⟨1/10, 0⟩]
    loading := [⟨1/2, 0⟩]
    losses := [⟨1/100, 0⟩]
    flow_direction := [1]
    tap_module := [1]
    convergence_reports := [sampleReport] }

/-- Witness for C3: on a concrete two-bus island with bus map [1, 0], global
bus slot 1 receives local bus value 0 and the island report lands appended. -/
theorem c3_apply_from_island_scatter_witness :
    ([1, 0] : List Nat).Nodup
  ∧ (g3.apply_from_island res3 [1, 0] [0] [0]).Sbus.getD 1 ⟨0, 0⟩ = ⟨5, 0⟩
  ∧ (g3.apply_from_island res3 [1, 0] [0] [0]).convergence_reports
      = g3.convergence_reports ++ res3.convergence_reports :=
  ⟨by decide,
   (c3_apply_from_island_scatter g3 res3 [1, 0] [0] [0]
       (by decide) (by decide) (by decide)).1.1
     ([1, 0], res3.Sbus) (List.mem_cons_self _ _) 0 1 ⟨5, 0⟩ rfl rfl (by decide) ⟨0, 0⟩,
   (c3_apply_from_island_scatter g3 res3 [1, 0] [0] [0]
       (by decide) (by decide) (by decide)).2.2.2.2.2.2.2.2.2⟩

/-- Each array of the result of a full pass is the corresponding fold of
scatters, and the three HVDC arrays are never touched by the pass. -/
theorem applyPass_arrays (g : PowerFlowResults)
    (xs : List (PowerFlowResults × List Nat × List Nat × List Nat)) :
    (applyPass g xs).Sbus = scatterFold g.Sbus (xs.map (fun q => (q.2.1, q.1.Sbus)))
  ∧ (applyPass g xs).voltage = scatterFold g.voltage (xs.map (fun q => (q.2.1, q.1.voltage)))
  ∧ (applyPass g xs).Sbranch = scatterFold g.Sbranch (xs.map (fun q => (q.2.2.1, q.1.Sbranch)))
  ∧ (applyPass g xs).Ibranch = scatterFold g.Ibranch (xs.map (fun q => (q.2.2.1, q.1.Ibranch)))
  ∧ (applyPass g xs).Vbranch = scatterFold g.Vbranch (xs.map (fun q => (q.2.2.1, q.1.Vbranch)))
  ∧ (applyPass g xs).loading = scatterFold g.loading (xs.map (fun q => (q.2.2.1, q.1.loading)))
  ∧ (applyPass g xs).losses = scatterFold g.losses (xs.map (fun q => (q.2.2.1, q.1.losses)))
  ∧ (applyPass g xs).flow_direction
      = scatterFold g.flow_direction (xs.map (fun q => (q.2.2.1, q.1.flow_direction)))
  ∧ (applyPass g xs).tap_module
      = scatterFold g.tap_module (xs.map (fun q => (q.2.2.2, q.1.tap_module)))
  ∧ (applyPass g xs).hvdc_losses = g.hvdc_losses
  ∧ (applyPass g xs).hvdc_sent_power = g.hvdc_sent_power
  ∧ (applyPass g xs).hvdc_loading = g.hvdc_loading := by
  induction xs generalizing g with
  | nil => exact ⟨rfl, rfl, rfl, rfl, rfl, rfl, rfl, rfl, rfl, rfl, rfl, rfl⟩
  | cons q qs ih => exact ih (g.apply_from_island q.1 q.2.1 q.2.2.1 q.2.2.2)

/-- C2 amended: after a full aggregation pass whose per-island index maps are
duplicate-free and pairwise disjoint, every slot of the bus arrays (Sbus,
voltage), branch arrays (Sbranch, Ibranch, Vbranch, loading, losses,
flow_direction) and transformer array (tap_module) named by an index map
holds exactly the value of its unique writing island, and every slot outside
the maps keeps its initial value — written exactly once.  The HVDC
sent-power, HVDC losses and HVDC loading arrays, however, are never written
by apply_from_island: they keep their initial values regardless of the
islands' HVDC results. -/
theorem c2_aggregation_pass (g : PowerFlowResults)
    (xs : List (PowerFlowResults × List Nat × List Nat × List Nat))
    (hndb : ∀ q ∈ xs, q.2.1.Nodup)
    (hndbr : ∀ q ∈ xs, q.2.2.1.Nodup)
    (hndtr : ∀ q ∈ xs, q.2.2.2.Nodup)
    (hdb : xs.Pairwise (fun u w => ∀ j, j ∈ u.2.1 → j ∉ w.2.1))
    (hdbr : xs.Pairwise (fun u w => ∀ j, j ∈ u.2.2.1 → j ∉ w.2.2.1))
    (hdtr : xs.Pairwise (fun u w => ∀ j, j ∈ u.2.2.2 → j ∉ w.2.2.2)) :
    ScatterSpec g.Sbus (xs.map (fun q => (q.2.1, q.1.Sbus))) (applyPass g xs).Sbus
  ∧ ScatterSpec g.voltage (xs.map (fun q => (q.2.1, q.1.voltage))) (applyPass g xs).voltage
  ∧ ScatterSpec g.Sbranch (xs.map (fun q => (q.2.2.1, q.1.Sbranch))) (applyPass g xs).Sbranch
  ∧ ScatterSpec g.Ibranch (xs.map (fun q => (q.2.2.1, q.1.Ibranch))) (applyPass g xs).Ibranch
  ∧ ScatterSpec g.Vbranch (xs.map (fun q => (q.2.2.1, q.1.Vbranch))) (applyPass g xs).Vbranch
  ∧ ScatterSpec g.loading (xs.map (fun q => (q.2.2.1, q.1.loading))) (applyPass g xs).loading
  ∧ ScatterSpec g.losses (xs.map (fun q => (q.2.2.1, q.1.losses))) (applyPass g xs).losses
  ∧ ScatterSpec g.flow_direction (xs.map (fun q => (q.2.2.1, q.1.flow_direction)))
      (applyPass g xs).flow_direction
  ∧ ScatterSpec g.tap_module (xs.map (fun q => (q.2.2.2, q.1.tap_module)))
      (applyPass g xs).tap_module
  ∧ (applyPass g xs).hvdc_losses = g.hvdc_losses
  ∧ (applyPass g xs).hvdc_sent_power = g.hvdc_sent_power
  ∧ (applyPass g xs).hvdc_loading = g.hvdc_loading := by
  obtain ⟨e1, e2, e3, e4, e5, e6, e7, e8, e9, e10, e11, e12⟩ := applyPass_arrays g xs
  have tb : ∀ f : (PowerFlowResults × List Nat × List Nat × List Nat) → List Cplx,
      ∀ w ∈ xs.map (fun q => (q.2.1, f q)), w.1.Nodup := by
    intro f w hw
    obtain ⟨q, hq, rfl⟩ := List.mem_map.mp hw
    exact hndb q hq
  have tbr : ∀ {β : Type} (f : (PowerFlowResults × List Nat × List Nat × List Nat) → List β),
      ∀ w ∈ xs.map (fun q => (q.2.2.1, f q)), w.1.Nodup := by
    intro β f w hw
    obtain ⟨q, hq, rfl⟩ := List.mem_map.mp hw
    exact hndbr q hq
  have ttr : ∀ f : (PowerFlowResults × List Nat × List Nat × List Nat) → List ℚ,
      ∀ w ∈ xs.map (fun q => (q.2.2.2, f q)), w.1.Nodup := by
    intro f w hw
    obtain ⟨q, hq, rfl⟩ := List.mem_map.mp hw
    exact hndtr q hq
  have db : ∀ f : (PowerFlowResults × List Nat × List Nat × List Nat) → List Cplx,
      (xs.map (fun q => (q.2.1, f q))).Pairwise (fun u w => ∀ j, j ∈ u.1 → j ∉ w.1) :=
    fun f => List.pairwise_map.mpr hdb
  have dbr : ∀ {β : Type} (f : (PowerFlowResults × List Nat × List Nat × List Nat) → List β),
      (xs.map (fun q => (q.2.2.1, f q))).Pairwise (fun u w => ∀ j, j ∈ u.1 → j ∉ w.1) :=
    fun f => List.pairwise_map.mpr hdbr
  have dtr : ∀ f : (PowerFlowResults × List Nat × List Nat × List Nat) → List ℚ,
      (xs.map (fun q => (q.2.2.2, f q))).Pairwise (fun u w => ∀ j, j ∈ u.1 → j ∉ w.1) :=
    fun f => List.pairwise_map.mpr hdtr
  refine ⟨?_, ?_, ?_, ?_, ?_, ?_, ?_, ?_, ?_, e10, e11, e12⟩
  · rw [e1]; exact scatterFold_spec _ _ (tb _) (db _)
  · rw [e2]; exact scatterFold_spec _ _ (tb _) (db _)
  · rw [e3]; exact scatterFold_spec _ _ (tbr _) (dbr _)
  · rw [e4]; exact scatterFold_spec _ _ (tbr _) (dbr _)
  · rw [e5]; exact scatterFold_spec _ _ (tbr _) (dbr _)
  · rw [e6]; exact scatterFold_spec _ _ (tbr _) (dbr _)
  · rw [e7]; exact scatterFold_spec _ _ (tbr _) (dbr _)
  · rw [e8]; exact scatterFold_spec _ _ (tbr _) (dbr _)
  · rw [e9]; exact scatterFold_spec _ _ (ttr _) (dtr _)

/-- A concrete global result object for a network with one active bus and
one active HVDC link (no branches, no transformers). -/
def g2c : PowerFlowResults :=
  mkPowerFlowResults 1 0 0 1 ["b"] [] [] ["h"] [3]

/-- A concrete island result covering that bus, whose HVDC results are
5 MW sent, 2 MW losses and 0.5 loading. -/
def isl2 : PowerFlowResults :=
  { mkPowerFlowResults 1 0 0 1 ["b"] [] [] ["h"] [3] with
    Sbus := [⟨1, 0⟩]
    voltage := [⟨1, 0⟩]
    hvdc_sent_power := [5]
    hvdc_losses := [2]
    hvdc_loading := [1/2]
    convergence_reports := [sampleReport] }

/-- C2 counterexample: a full aggregation pass whose single island covers
every active bus, branch, transformer and HVDC link.  The bus slot is
written, but the global HVDC sent-power, losses and loading entries of the
active HVDC link still hold their initial zeros, not the island's values
5, 2, 1/2 — so those entries were written by no island, not exactly one. -/
theorem c2_hvdc_not_written_counterexample :
    (applyPass g2c [(isl2, [0], [], [])]).hvdc_sent_power = [0]
  ∧ (applyPass g2c [(isl2, [0], [], [])]).hvdc_losses = [0]
  ∧ (applyPass g2c [(isl2, [0], [], [])]).hvdc_loading = [0]
  ∧ isl2.hvdc_sent_power = [5]
  ∧ isl2.hvdc_losses = [2]
  ∧ isl2.hvdc_loading = [1/2]
  ∧ (applyPass g2c [(isl2, [0], [], [])]).Sbus = [⟨1, 0⟩] :=
  ⟨rfl, rfl, rfl, rfl, rfl, rfl, rfl⟩

/-- Witness for C2: the amended theorem applied to the concrete one-island
pass — the written bus slot holds the island value, the HVDC array equals
the untouched initial array. -/
theorem c2_aggregation_pass_witness :
    (applyPass g2c [(isl2, [0], [], [])]).Sbus.getD 0 ⟨0, 0⟩ = ⟨1, 0⟩
  ∧ (applyPass g2c [(isl2, [0], [], [])]).hvdc_sent_power = g2c.hvdc_sent_power := by
  have hnd1 : ∀ q ∈ [(isl2, ([0] : List Nat), ([] : List Nat), ([] : List Nat))], q.2.1.Nodup := by
    intro q hq
    rw [List.mem_singleton] at hq
    subst hq
    decide
  have hnd2 : ∀ q ∈ [(isl2, ([0] : List Nat), ([] : List Nat), ([] : List Nat))], q.2.2.1.Nodup := by
    intro q hq
    rw [List.mem_singleton] at hq
    subst hq
    decide
  have hnd3 : ∀ q ∈ [(isl2, ([0] : List Nat), ([] : List Nat), ([] : List Nat))], q.2.2.2.Nodup := by
    intro q hq
    rw [List.mem_singleton] at hq
    subst hq
    decide
  have h := c2_aggregation_pass g2c [(isl2, [0], [], [])] hnd1 hnd2 hnd3
    (List.pairwise_singleton _ _) (List.pairwise_singleton _ _) (List.pairwise_singleton _ _)
  refine ⟨?_, h.2.2.2.2.2.2.2.2.2.2.1⟩
  exact h.1.1 ([0], isl2.Sbus) (List.mem_cons_self _ _) 0 0 ⟨1, 0⟩ rfl rfl (by decide) ⟨0, 0⟩

/-- Membership in the overload index set is loading lexicographically greater
than 1 at an in-range position. -/
theorem mem_overloadsIdxOf (loading : List Cplx) (i : Nat) :
    i ∈ overloadsIdxOf loading
      ↔ i < loading.length
        ∧ (1 < (loading.getD i ⟨0, 0⟩).re
            ∨ ((loading.getD i ⟨0, 0⟩).re = 1 ∧ 0 < (loading.getD i ⟨0, 0⟩).im)) := by
  unfold overloadsIdxOf idxWhere
  rw [List.mem_filter, List.mem_range]
  simp [cplxGtOne]

/-- C5 amended: check_limits selects as the overload set exactly the branches
whose complex loading compares greater than 1 in numpy's lexicographic
complex order (real part above 1, or real part equal to 1 with positive
imaginary part) — not the branches whose loading magnitude exceeds 1 — and
stores for them the loading values themselves (not the excess over the 1.0
limit), together with the index set. -/
theorem c5_overload_selection (r : PowerFlowResults) (F T : List Nat)
    (Vmax Vmin : List ℚ) (wo wv1 wv2 : ℚ) :
    (∀ i : Nat, i ∈ (r.check_limits F T Vmax Vmin wo wv1 wv2).1.overloads_idx
       ↔ i < r.loading.length
         ∧ (1 < (r.loading.getD i ⟨0, 0⟩).re
             ∨ ((r.loading.getD i ⟨0, 0⟩).re = 1 ∧ 0 < (r.loading.getD i ⟨0, 0⟩).im)))
  ∧ (r.check_limits F T Vmax Vmin wo wv1 wv2).1.overloads
      = (r.check_limits F T Vmax Vmin wo wv1 wv2).1.overloads_idx.map
          (fun i => r.loading.getD i ⟨0, 0⟩) :=
  ⟨fun i => mem_overloadsIdxOf r.loading i, rfl⟩

/-- A concrete result object with a single branch of loading -2 (magnitude
2, above the nominal 1.0) and an in-limits bus voltage. -/
def r5neg : PowerFlowResults :=
  { mkPowerFlowResults 1 1 0 0 ["b"] ["br"] [] [] [1] with
    voltage := [⟨1, 0⟩]
    loading := [⟨-2, 0⟩] }

/-- C5 counterexample: the branch with loading -2 has loading-ratio magnitude
2 > 1, yet check_limits selects no branch at all (numpy evaluates -2 > 1,
which is false), so the overload set is not the set of branches whose loading
magnitude exceeds 1.0. -/
theorem c5_overload_selection_counterexample :
    (r5neg.check_limits [0] [0] [11/10] [9/10] 1 1 1).1.overloads_idx = []
  ∧ (r5neg.check_limits [0] [0] [11/10] [9/10] 1 1 1).1.overloads = []
  ∧ 1 < (r5neg.loading.getD 0 ⟨0, 0⟩).re * (r5neg.loading.getD 0 ⟨0, 0⟩).re
        + (r5neg.loading.getD 0 ⟨0, 0⟩).im * (r5neg.loading.getD 0 ⟨0, 0⟩).im := by
  refine ⟨by decide, by decide, ?_⟩
  have h : r5neg.loading.getD 0 ⟨0, 0⟩ = ⟨-2, 0⟩ := by decide
  rw [h]
  norm_num

/-- C7 amended: check_limits leaves every numeric result array and every
descriptive field of the snapshot unchanged — it mutates only the recorded
violation data: overloads, overvoltage, undervoltage, the three index sets
and the buses_useful_for_storage hint set — and a second call on the updated
object returns the same penalty as the first call. -/
theorem c7_check_limits_frame (r : PowerFlowResults) (F T : List Nat)
    (Vmax Vmin : List ℚ) (wo wv1 wv2 : ℚ) :
    (r.check_limits F T Vmax Vmin wo wv1 wv2).1.Sbus = r.Sbus
  ∧ (r.check_limits F T Vmax Vmin wo wv1 wv2).1.voltage = r.voltage
  ∧ (r.check_limits F T Vmax Vmin wo wv1 wv2).1.Sbranch = r.Sbranch
  ∧ (r.check_limits F T Vmax Vmin wo wv1 wv2).1.Ibranch = r.Ibranch
  ∧ (r.check_limits F T Vmax Vmin wo wv1 wv2).1.Vbranch = r.Vbranch
  ∧ (r.check_limits F T Vmax Vmin wo wv1 wv2).1.loading = r.loading
  ∧ (r.check_limits F T Vmax Vmin wo wv1 wv2).1.losses = r.losses
  ∧ (r.check_limits F T Vmax Vmin wo wv1 wv2).1.flow_direction = r.flow_direction
  ∧ (r.check_limits F T Vmax Vmin wo wv1 wv2).1.tap_module = r.tap_module
  ∧ (r.check_limits F T Vmax Vmin wo wv1 wv2).1.hvdc_losses = r.hvdc_losses
  ∧ (r.check_limits F T Vmax Vmin wo wv1 wv2).1.hvdc_sent_power = r.hvdc_sent_power
  ∧ (r.check_limits F T Vmax Vmin wo wv1 wv2).1.hvdc_loading = r.hvdc_loading
  ∧ (r.check_limits F T Vmax Vmin wo wv1 wv2).1.convergence_reports = r.convergence_reports
  ∧ (r.check_limits F T Vmax Vmin wo wv1 wv2).1.bus_types = r.bus_types
  ∧ (r.check_limits F T Vmax Vmin wo wv1 wv2).1.n = r.n
  ∧ (r.check_limits F T Vmax Vmin wo wv1 wv2).1.m = r.m
  ∧ (r.check_limits F T Vmax Vmin wo wv1 wv2).1.n_tr = r.n_tr
  ∧ (r.check_limits F T Vmax Vmin wo wv1 wv2).1.n_hvdc = r.n_hvdc
  ∧ (r.check_limits F T Vmax Vmin wo wv1 wv2).1.name = r.name
  ∧ (r.check_limits F T Vmax Vmin wo wv1 wv2).1.bus_names = r.bus_names
  ∧ (r.check_limits F T Vmax Vmin wo wv1 wv2).1.branch_names = r.branch_names
  ∧ (r.check_limits F T Vmax Vmin wo wv1 wv2).1.transformer_names = r.transformer_names
  ∧ (r.check_limits F T Vmax Vmin wo wv1 wv2).1.hvdc_names = r.hvdc_names
  ∧ (r.check_limits F T Vmax Vmin wo wv1 wv2).1.plot_bars_limit = r.plot_bars_limit
  ∧ (((r.check_limits F T Vmax Vmin wo wv1 wv2).1).check_limits F T Vmax Vmin wo wv1 wv2).2
      = (r.check_limits F T Vmax Vmin wo wv1 wv2).2 :=
  ⟨rfl, rfl, rfl, rfl, rfl, rfl, rfl, rfl, rfl, rfl, rfl, rfl, rfl, rfl, rfl, rfl, rfl,
   rfl, rfl, rfl, rfl, rfl, rfl, rfl, rfl⟩

/-- A concrete result object with one overloaded branch (loading 2). -/
def r7mut : PowerFlowResults :=
  { mkPowerFlowResults 1 1 0 0 ["b"] ["br"] [] [] [1] with
    voltage := [⟨1, 0⟩]
    loading := [⟨2, 0⟩] }

/-- C7 counterexample: check_limits does not leave the ResultSet unchanged
apart from the storage hint set — it also rewrites the overloads field (here
from the initial zero array to the selected loading values) and the overloads
index set. -/
theorem c7_check_limits_mutates_counterexample :
    (r7mut.check_limits [0] [0] [11/10] [9/10] 1 1 1).1.overloads ≠ r7mut.overloads
  ∧ (r7mut.check_limits [0] [0] [11/10] [9/10] 1 1 1).1.overloads_idx ≠ r7mut.overloads_idx
  ∧ (r7mut.check_limits [0] [0] [11/10] [9/10] 1 1 1).1.overloads = [⟨2, 0⟩]
  ∧ r7mut.overloads = [⟨0, 0⟩] := by
  refine ⟨by decide, by decide, by decide, by decide⟩

/-- A concrete result object matching end-to-end scenario 4: one branch with
loading 1.5 p.u., one bus with in-limits voltage 1.0. -/
def r4ol : PowerFlowResults :=
  { mkPowerFlowResults 1 1 0 0 ["b"] ["br"] [] [] [1] with
    voltage := [⟨1, 0⟩]
    loading := [⟨3/2, 0⟩] }

/-- Evaluation of check_limits on scenario 4: the overload set is the single
branch, no voltage violations, and the returned penalty is 1.5 — the stored
overload is the full loading value, not the 0.5 excess over the limit. -/
theorem check_limits_scenario4_eval :
    (r4ol.check_limits [0] [0] [11/10] [9/10] 1 0 0).2 = 3/2 := by
  have hbr : overloadsIdxOf r4ol.loading = [0] := by
    show overloadsIdxOf [⟨3/2, 0⟩] = [0]
    unfold overloadsIdxOf idxWhere
    norm_num [List.range_succ, List.filter_cons, cplxGtOne]
  have hvo : overvoltIdxOf r4ol.voltage [11/10] = [] := by
    show overvoltIdxOf [⟨1, 0⟩] [11/10] = []
    unfold overvoltIdxOf idxWhere
    norm_num [List.range_succ, List.filter_cons, absGtB]
  have hvu : undervoltIdxOf r4ol.voltage [9/10] = [] := by
    show undervoltIdxOf [⟨1, 0⟩] [9/10] = []
    unfold undervoltIdxOf idxWhere
    norm_num [List.range_succ, List.filter_cons, absLtB]
  simp only [PowerFlowResults.check_limits, hbr, hvo, hvu, List.map_cons, List.map_nil,
    List.sum_nil, csum, List.foldl_cons, List.foldl_nil]
  have hl : r4ol.loading.getD 0 ⟨0, 0⟩ = ⟨3/2, 0⟩ := rfl
  rw [hl]
  push_cast
  norm_num
  rw [show (9:ℝ) = 3 ^ 2 by norm_num, show (4:ℝ) = 2 ^ 2 by norm_num,
    Real.sqrt_sq (by norm_num : (0:ℝ) ≤ 3), Real.sqrt_sq (by norm_num : (0:ℝ) ≤ 2)]

/-- C4 counterexample: on the scenario with exactly one branch at loading
1.5 p.u., all other quantities within limits, weight_overload = 1 and both
voltage weights 0, check_limits does not return 0.5: the source sums the
selected loading values themselves (self.overloads = self.loading[br_idx]),
not their excess over the 1.0 limit. -/
theorem c4_penalty_not_half_counterexample :
    (r4ol.check_limits [0] [0] [11/10] [9/10] 1 0 0).2 ≠ 1/2 := by
  rw [check_limits_scenario4_eval]
  norm_num

/-- C4 amended: on that same scenario — one branch with loading 1.5 p.u.
against the 1.0 nominal limit, everything else within limits,
weight_overload = 1 and the voltage weights 0 — check_limits returns a
penalty of 1.5 (the full loading value of the overloaded branch), not the
0.5 excess. -/
theorem c4_penalty_scenario :
    r4ol.loading = [⟨3/2, 0⟩]
  ∧ (r4ol.check_limits [0] [0] [11/10] [9/10] 1 0 0).2 = 3/2 :=
  ⟨rfl, check_limits_scenario4_eval⟩

/-- The bus ids added by the positive-sequence bus elements of a prefix of
the input, in order of addition. -/
def busIdsAdded (pre : List JElement) : List String :=
  (pre.filter (fun e => e.phases == "ps" && e.jtype == JType.bus)).map (fun e => e.id)

/-- Looking a key up after a store finds the stored bus, or falls through. -/
theorem lookupBus_storeBus (d : List (String × BusM)) (key : String) (b : BusM)
    (k : String) :
    lookupBus (storeBus d key b) k = if key = k then some b else lookupBus d k := by
  rcases eq_or_ne key k with rfl | hne
  · simp [lookupBus, storeBus, List.find?_cons]
  · simp [lookupBus, storeBus, List.find?_cons, hne]

/-- A successful attachInj changes no key of the dictionary. -/
theorem attachInj_keys (st st' : ParseState) (key : String) (f : BusM → BusM)
    (h : attachInj st key f = Except.ok st') (k : String) :
    (lookupBus st'.bus_id k).isSome = (lookupBus st.bus_id k).isSome := by
  rw [attachInj] at h
  split at h
  next => exact Except.noConfusion h
  next bm hbm =>
    obtain rfl := Except.ok.inj h
    show (lookupBus (storeBus st.bus_id key (f bm)) k).isSome = _
    rw [lookupBus_storeBus]
    rcases eq_or_ne key k with rfl | hne
    · simp [hbm]
    · simp [hne]

/-- A successfully processed element leaves the key set of bus_id unchanged
unless it is a positive-sequence bus element, which adds its id. -/
theorem parseElement_keys (st st' : ParseState) (e : JElement)
    (h : parseElement st e = Except.ok st') (k : String) :
    ((lookupBus st'.bus_id k).isSome = true
      ↔ ((e.phases = "ps" ∧ e.jtype = JType.bus ∧ e.id = k)
          ∨ (lookupBus st.bus_id k).isSome = true)) := by
  rw [parseElement] at h
  split at h
  next hps =>
    split at h
    next hty =>
      obtain rfl := Except.ok.inj h
      simp [hty]
    next hty =>
      obtain rfl := Except.ok.inj h
      show (lookupBus (storeBus st.bus_id e.id _) k).isSome = true ↔ _
      rw [lookupBus_storeBus]
      rcases eq_or_ne e.id k with heq | hne
      · simp [hps, hty, heq]
      · simp [hps, hty, hne]
    next hty =>
      rw [attachInj_keys st st' e.bus _ h k]
      simp [hty]
    next hty =>
      rw [attachInj_keys st st' e.bus _ h k]
      simp [hty]
    next hty =>
      rw [attachInj_keys st st' e.bus _ h k]
      simp [hty]
    next hty =>
      rw [attachInj_keys st st' e.bus _ h k]
      simp [hty]
    next hty =>
      rw [attachInj_keys st st' e.bus _ h k]
      simp [hty]
    next hty =>
      split at h
      next => exact Except.noConfusion h
      next =>
        split at h
        next => exact Except.noConfusion h
        next =>
          obtain rfl := Except.ok.inj h
          simp [hty]
  next hps =>
    obtain rfl := Except.ok.inj h
    simp [hps]

/-- Membership in the added-bus-id list of a one-longer prefix. -/
theorem mem_busIdsAdded_cons (e : JElement) (pre : List JElement) (k : String) :
    k ∈ busIdsAdded (e :: pre)
      ↔ ((e.phases = "ps" ∧ e.jtype = JType.bus ∧ e.id = k) ∨ k ∈ busIdsAdded pre) := by
  unfold busIdsAdded
  rw [List.filter_cons]
  by_cases h1 : e.phases = "ps"
  · by_cases h2 : e.jtype = JType.bus
    · rw [if_pos (by simp [h1, h2]), List.map_cons, List.mem_cons]
      constructor
      · rintro (rfl | hm)
        · exact Or.inl ⟨h1, h2, rfl⟩
        · exact Or.inr hm
      · rintro (⟨-, -, rfl⟩ | hm)
        · exact Or.inl rfl
        · exact Or.inr hm
    · rw [if_neg (by simp [h2])]
      constructor
      · exact fun hm => Or.inr hm
      · rintro (⟨-, hb, -⟩ | hm)
        · exact absurd hb h2
        · exact hm
  · rw [if_neg (by simp [h1])]
    constructor
    · exact fun hm => Or.inr hm
    · rintro (⟨hp, -, -⟩ | hm)
      · exact absurd hp h1
      · exact hm

/-- After successfully folding a prefix from the empty dictionary, the keys
of bus_id are exactly the added bus ids. -/
theorem foldlM_keys (pre : List JElement) (st st' : ParseState)
    (h : pre.foldlM parseElement st = Except.ok st') (k : String) :
    ((lookupBus st'.bus_id k).isSome = true
      ↔ (k ∈ busIdsAdded pre ∨ (lookupBus st.bus_id k).isSome = true)) := by
  induction pre generalizing st with
  | nil =>
    obtain rfl := Except.ok.inj h
    simp [busIdsAdded]
  | cons e pre ih =>
    rw [List.foldlM_cons] at h
    cases hpe : parseElement st e with
    | error msg =>
      rw [hpe] at h
      exact Except.noConfusion h
    | ok st1 =>
      rw [hpe] at h
      rw [show (Except.ok st1 >>= fun s => pre.foldlM parseElement s)
          = pre.foldlM parseElement st1 from rfl] at h
      rw [ih st1 h, parseElement_keys st st1 e hpe k, mem_busIdsAdded_cons]
      tauto

/-- C8: if some positive-sequence element of the input is a branch whose
"from" or "to" bus id was not previously added as a bus, or an injection
(load, generator, static generator, battery or shunt) whose owning bus id
was not previously added, then parse_json_data raises a KeyError: it returns
an error and no circuit. -/
theorem c8_dangling_reference_rejected (pre post : List JElement) (e : JElement)
    (hps : e.phases = "ps")
    (hdang :
       (e.jtype = JType.branch
         ∧ (e.bus_from ∉ busIdsAdded pre ∨ e.bus_to ∉ busIdsAdded pre))
     ∨ ((e.jtype = JType.load ∨ e.jtype = JType.controlled_gen
           ∨ e.jtype = JType.static_gen ∨ e.jtype = JType.battery
           ∨ e.jtype = JType.shunt)
         ∧ e.bus ∉ busIdsAdded pre)) :
    ∃ msg, parse_json_data (pre ++ e :: post) = Except.error msg := by
  rw [parse_json_data, List.foldlM_append]
  cases hpre : List.foldlM parseElement (⟨emptyCircuit, []⟩ : ParseState) pre with
  | error msg => exact ⟨msg, rfl⟩
  | ok st =>
    have hkey : ∀ k, (lookupBus st.bus_id k).isSome = true ↔ k ∈ busIdsAdded pre := by
      intro k
      rw [foldlM_keys pre ⟨emptyCircuit, []⟩ st hpre k]
      simp [lookupBus]
    have hnone : ∀ k, k ∉ busIdsAdded pre → lookupBus st.bus_id k = none := by
      intro k hk
      exact Option.not_isSome_iff_eq_none.mp (fun hs => hk ((hkey k).mp hs))
    have hstep : ∃ msg2, parseElement st e = Except.error msg2 := by
      rw [parseElement, if_pos hps]
      rcases hdang with ⟨hty, hmiss⟩ | ⟨hty5, hmiss⟩
      · simp only [hty]
        rcases hmiss with hf | ht
        · rw [hnone e.bus_from hf]
          exact ⟨_, rfl⟩
        · cases hlf : lookupBus st.bus_id e.bus_from with
          | none => exact ⟨_, rfl⟩
          | some bm =>
            rw [hnone e.bus_to ht]
            exact ⟨_, rfl⟩
      · rcases hty5 with hty | hty | hty | hty | hty <;>
          · simp only [hty]
            rw [attachInj, hnone e.bus hmiss]
            exact ⟨_, rfl⟩
    obtain ⟨msg2, hstep⟩ := hstep
    refine ⟨msg2, ?_⟩
    show Except.map (fun x => x.circuit) (List.foldlM parseElement st (e :: post))
      = Except.error msg2
    rw [List.foldlM_cons, hstep]
    rfl

/-- A concrete positive-sequence bus element with id b1. -/
def jbusElem : JElement where
  phases := "ps"
  jtype := JType.bus
  id := "b1"
  name := "Bus 1"
  Sbase := 100
  comments := ""
  Vnom := 10
  vmax := 11/10
  vmin := 9/10
  is_slack := true
  rf := 0
  xf := 0
  bus := ""
  bus_from := ""
  bus_to := ""
  P := 0
  Q := 0
  active := true
  r := 0
  x := 0
  g := 0
  b := 0
  rate := 0

/-- A concrete branch element whose "to" end references the never-added bus
id zz. -/
def jbranchDangling : JElement :=
  { jbusElem with
    jtype := JType.branch
    id := "br1"
    name := "Line 1"
    bus_from := "b1"
    bus_to := "zz"
    r := 1/100
    x := 1/10 }

/-- Witness for C8: parsing a bus followed by a branch to the missing bus id
zz returns an error. -/
theorem c8_dangling_reference_rejected_witness :
    jbranchDangling.phases = "ps"
  ∧ jbranchDangling.bus_to ∉ busIdsAdded [jbusElem]
  ∧ ∃ msg, parse_json_data [jbusElem, jbranchDangling] = Except.error msg :=
  ⟨rfl, by decide,
   c8_dangling_reference_rejected [jbusElem] [] jbranchDangling rfl
     (Or.inl ⟨rfl, Or.inr (by decide)⟩)⟩

/-- The while guard of get_reliability_events is true for every state when
the horizon exceeds 1: the compared value t.any() is the number 0 or 1. -/
theorem relGuard_always_true (horizon : ℚ) (h : 1 < horizon) (b : Bool) :
    boolToRat b < horizon := by
  cases b <;> simp [boolToRat] <;> linarith

/-- C9: for every horizon greater than 1 hour, get_reliability_events never
terminates, whatever the random draws: the while guard compares the boolean
t.any() — the number 0 or 1 — against the horizon, and both 0 < horizon and
1 < horizon hold, so the guard never turns false; after any number of
iterations the loop is still running (the fuelled interpreter returns none
for every fuel), so no finite event list is ever returned. -/
theorem c9_get_reliability_events_diverges (horizon : ℚ) (h : 1 < horizon)
    (samples : Nat → List ℚ × List ℚ) (fuel : Nat) (s : RelEvState) :
    get_reliability_events horizon samples fuel s = none := by
  induction fuel generalizing s with
  | zero =>
    rw [get_reliability_events, if_pos (relGuard_always_true horizon h _)]
  | succ fuel ih =>
    rw [get_reliability_events, if_pos (relGuard_always_true horizon h _)]
    exact ih _

/-- Witness for C9: with horizon 2 h, one sample, unit failure and repair
draws, the loop is still running after five iterations. -/
theorem c9_get_reliability_events_diverges_witness :
    (1 : ℚ) < 2
  ∧ get_reliability_events 2 (fun _ => ([1], [1])) 5 ⟨[0], []⟩ = none :=
  ⟨by norm_num,
   c9_get_reliability_events_diverges 2 (by norm_num) (fun _ => ([1], [1])) 5 ⟨[0], []⟩⟩

/-- Witness for C5: on the concrete object with loading 2, branch 0 is in
the overload set by the amended selection rule. -/
theorem c5_overload_selection_witness :
    0 ∈ (r7mut.check_limits [0] [0] [11/10] [9/10] 1 1 1).1.overloads_idx :=
  ((c5_overload_selection r7mut [0] [0] [11/10] [9/10] 1 1 1).1 0).mpr
    ⟨by decide, Or.inl (by decide)⟩

/-- Witness for C7: on the concrete object the loading array is unchanged by
check_limits. -/
theorem c7_check_limits_frame_witness :
    (r7mut.check_limits [0] [0] [11/10] [9/10] 1 1 1).1.loading = r7mut.loading :=
  (c7_check_limits_frame r7mut [0] [0] [11/10] [9/10] 1 1 1).2.2.2.2.2.1
